import Mathlib

set_option autoImplicit false

/-!
Verification of the recurring-task orchestration core of `bff_python`
(`modules/backend/tasks/scheduled.py`): the scheduled-task table, the
broker registration step, and the hourly health aggregator.

Modelling conventions:
* Python string-keyed dictionaries are association lists (`Dict α`);
  `dictGet` mimics `dict.get` (returns `none` for an absent key) and
  `dictInsert` mimics `d[k] = v` (silent overwrite of an existing key).
* A coroutine that may raise is a value of `Except String α`, the
  `String` being `str(exception)`.
* Wall-clock timestamps are an explicit `now` parameter.
* The unit functions themselves (`daily_cleanup`, ...) are opaque to the
  registration step, so a registered unit is represented by its name.
-/

namespace BffTasks

/-- Python dict with string keys, as an association list (source dicts have
unique keys; the literal and assignment semantics are captured by
`dictInsert`). -/
abbrev Dict (α : Type) := List (String × α)

/-- Python `d.get(k)`: the value at `k`, or `none` when the key is absent. -/
def dictGet {α : Type} (d : Dict α) (k : String) : Option α :=
  (d.find? (fun p => p.1 == k)).map Prod.snd

/-- Python `k in d`. -/
def dictContains {α : Type} (d : Dict α) (k : String) : Bool :=
  d.any (fun p => p.1 == k)

/-- Python `d[k] = v`: replaces the value of an existing key in place,
otherwise appends the pair at the end (insertion order preserved). -/
def dictInsert {α : Type} (d : Dict α) (k : String) (v : α) : Dict α :=
  if dictContains d k then d.map (fun p => if p.1 == k then (k, v) else p)
  else d ++ [(k, v)]

/-! ### Health aggregator (`hourly_health_check`) -/

/-- The payload a subsystem probe returns: a string-keyed mapping such as
`{"status": "healthy"}`. Only string values are relevant to the claims. -/
abbrev Outcome := Dict String

/-- What `asyncio.gather(..., return_exceptions=True)` delivers for one
probe: either its returned mapping or the raised exception (its message). -/
abbrev ProbeResult := Except String Outcome

/-- Lines 74-77 of `scheduled.py`: an exception from a probe is replaced by
the synthetic mapping `{"status": "error", "error": str(e)}`; a returned
mapping is kept unchanged. -/
def resolveCheck : ProbeResult → Outcome
  | .error msg => [("status", "error"), ("error", msg)]
  | .ok d => d

/-- Line 81 of `scheduled.py`:
`c.get("status") in ("healthy", "not_configured")`. -/
def statusPasses (c : Outcome) : Bool :=
  dictGet c "status" == some "healthy" || dictGet c "status" == some "not_configured"

/-- One structured log record: severity level and message. -/
structure LogRecord where
  level : String
  message : String
  deriving Repr, DecidableEq

/-- The mapping `hourly_health_check` returns (lines 85-89): folded status,
per-subsystem checks, and the completion timestamp. -/
structure HealthReport where
  status : String
  checks : Dict Outcome
  checked_at : String
  deriving Repr, DecidableEq

/-- Embedding of `hourly_health_check` (lines 56-93 of `scheduled.py`).
Inputs are the two probe deliveries from `asyncio.gather` with
`return_exceptions=True` and the current timestamp. The result carries the
returned report and the log records the body emits, in order. The `Except`
codomain records that a coroutine may raise; the body after the gather is
straight-line dictionary construction and logging, so it always returns
`Except.ok`. -/
def hourly_health_check (db_res redis_res : ProbeResult) (now : String) :
    Except String (HealthReport × List LogRecord) :=
  let db_check := resolveCheck db_res
  let redis_check := resolveCheck redis_res
  let checks : Dict Outcome := [("database", db_check), ("redis", redis_check)]
  let all_healthy := checks.all (fun c => statusPasses c.2)
  let result : HealthReport :=
    { status := if all_healthy then "healthy" else "degraded"
      checks := checks
      checked_at := now }
  let log_level := if all_healthy then "info" else "warning"
  .ok (result,
    [{ level := "info", message := "Starting hourly health check" },
     { level := log_level, message := "Hourly health check completed" }])

/-- Modelled from the spec: the ExecutionResult the broker runtime records
for one firing (section 3 of the design; the broker runtime module
`modules/backend/tasks/broker.py` is not part of the repository sample).
`status` is `completed` when the unit returned normally and `error` when it
raised; `payload` is the returned value. -/
structure ExecutionResult where
  status : String
  payload : Option HealthReport
  deriving Repr, DecidableEq

/-- Modelled from the spec: how the broker runtime folds one unit execution
into an ExecutionResult (the aggregator itself completes; degraded health is
reported inside the payload, not as a task failure). -/
def runUnit (r : Except String (HealthReport × List LogRecord)) : ExecutionResult :=
  match r with
  | .ok rep => { status := "completed", payload := some rep.1 }
  | .error _ => { status := "error", payload := none }

/-! ### Task table and registration (`SCHEDULED_TASKS`, `register_scheduled_tasks`) -/

/-- One entry of a `schedule` list: `{"cron": ..., "kwargs": {...}}`
(lines 142-168 use only integer keyword values; `args` never appears). -/
structure ScheduleEntry where
  cron : String
  kwargs : Dict Nat
  deriving Repr, DecidableEq

/-- One value of the `SCHEDULED_TASKS` table: the unit (by name), its
schedule list, its retry configuration and a description. `max_retries` is
`none` when the key is absent from the source dict. -/
structure TaskConfig where
  function : String
  schedule : List ScheduleEntry
  retry_on_error : Bool
  max_retries : Option Nat
  description : String
  deriving Repr, DecidableEq

/-- The `SCHEDULED_TASKS` dict of `scheduled.py`, lines 142-168, in source
order. -/
def SCHEDULED_TASKS : Dict TaskConfig :=
  [("daily_cleanup",
    { function := "daily_cleanup"
      schedule := [{ cron := "0 2 * * *", kwargs := [("older_than_days", 30)] }]
      retry_on_error := false
      max_retries := none
      description := "Clean up expired records daily at 2:00 AM UTC" }),
   ("hourly_health_check",
    { function := "hourly_health_check"
      schedule := [{ cron := "0 * * * *", kwargs := [] }]
      retry_on_error := false
      max_retries := none
      description := "Check external service health every hour" }),
   ("weekly_report_generation",
    { function := "weekly_report_generation"
      schedule := [{ cron := "0 6 * * 0", kwargs := [] }]
      retry_on_error := true
      max_retries := some 2
      description := "Generate weekly summary reports on Sunday" }),
   ("metrics_aggregation",
    { function := "metrics_aggregation"
      schedule := [{ cron := "*/15 * * * *", kwargs := [("interval_minutes", 15)] }]
      retry_on_error := false
      max_retries := none
      description := "Aggregate metrics every 15 minutes" })]

/-- The numeric value of a decimal digit character, `none` otherwise. -/
def digitVal? (c : Char) : Option Nat :=
  if c = '0' then some 0 else if c = '1' then some 1 else if c = '2' then some 2
  else if c = '3' then some 3 else if c = '4' then some 4 else if c = '5' then some 5
  else if c = '6' then some 6 else if c = '7' then some 7 else if c = '8' then some 8
  else if c = '9' then some 9 else none

/-- Accumulating decimal parse of a digit sequence. -/
def parseNatAux : List Char → Nat → Option Nat
  | [], acc => some acc
  | c :: rest, acc =>
    match digitVal? c with
    | some d => parseNatAux rest (acc * 10 + d)
    | none => none

/-- Parse of a non-empty all-digit character sequence. -/
def parseNat? : List Char → Option Nat
  | [] => none
  | cs => parseNatAux cs 0

/-- Split of a character sequence on single spaces, with `cur` the reversed
characters of the field being read. -/
def splitFieldsAux : List Char → List Char → List (List Char)
  | [], cur => [cur.reverse]
  | c :: rest, cur =>
    if c = ' ' then cur.reverse :: splitFieldsAux rest []
    else splitFieldsAux rest (c :: cur)

/-- Modelled from the spec: validity of one cron field against its legal
range; `*` and `*/n` step forms (the only forms the table uses) are
accepted, a bare number must lie inside the range. -/
def validField (lo hi : Nat) (f : List Char) : Bool :=
  match f with
  | ['*'] => true
  | '*' :: '/' :: rest =>
    match parseNat? rest with
    | some n => decide (1 ≤ n)
    | none => false
  | _ =>
    match parseNat? f with
    | some n => decide (lo ≤ n ∧ n ≤ hi)
    | none => false

/-- Legal ranges of the five cron fields: minute, hour, day-of-month,
month, day-of-week (section 3 of the design). -/
def cronFieldRanges : List (Nat × Nat) :=
  [(0, 59), (0, 23), (1, 31), (1, 12), (0, 6)]

/-- Modelled from the spec: a cron expression is valid when it has exactly
five space-separated fields, each within its legal range. -/
def validCron (s : String) : Bool :=
  let fields := splitFieldsAux s.data []
  fields.length == 5 &&
    (cronFieldRanges.zip fields).all (fun p => validField p.1.1 p.1.2 p.2)

/-- What `broker.task(**task_kwargs)(config["function"])` hands to the
broker: lines 187-196 of `scheduled.py` pass the task name, the schedule
list, `retry_on_error`, `max_retries` only when present, and the unit. -/
structure RegisteredTask where
  task_name : String
  schedule : List ScheduleEntry
  retry_on_error : Bool
  max_retries : Option Nat
  function : String
  deriving Repr, DecidableEq

/-- Registration-time errors of the broker adapter. -/
inductive RegError where
  /-- A cron expression of the named task failed validation; carries the
  offending cron field text. -/
  | invalidSchedule (task_name : String) (cron_field : String)
  deriving Repr, DecidableEq

/-- The wrapped form of one table entry, built from `task_kwargs`
(lines 187-196). -/
def wrapTask (task_name : String) (cfg : TaskConfig) : RegisteredTask :=
  { task_name := task_name
    schedule := cfg.schedule
    retry_on_error := cfg.retry_on_error
    max_retries := cfg.max_retries
    function := cfg.function }

/-- All cron expressions of a config are valid. -/
def cfgValid (cfg : TaskConfig) : Bool :=
  cfg.schedule.all (fun e => validCron e.cron)

/-- Modelled from the spec: the broker registration call for one task
(`broker.task`, in the absent `modules/backend/tasks/broker.py`). It
validates every ScheduleDescriptor; a malformed cron fails with
`InvalidScheduleError` naming the task and the offending field, otherwise
the wrapped task is appended to the broker state. -/
def brokerTask (b : List RegisteredTask) (t : RegisteredTask) :
    Except RegError (List RegisteredTask) :=
  match t.schedule.find? (fun e => ! validCron e.cron) with
  | some e => .error (.invalidSchedule t.task_name e.cron)
  | none => .ok (b ++ [t])

/-- The loop body of `register_scheduled_tasks` (lines 186-196): for each
table entry in order, build `task_kwargs`, call the broker, and record the
returned task object in the `registered` dict. An exception from the broker
propagates immediately; broker state mutated by earlier iterations persists
(Python performs no rollback). -/
def registerLoop :
    Dict TaskConfig → List RegisteredTask → Dict RegisteredTask →
      List RegisteredTask × Except RegError (Dict RegisteredTask)
  | [], b, acc => (b, .ok acc)
  | (task_name, cfg) :: rest, b, acc =>
    match brokerTask b (wrapTask task_name cfg) with
    | .error e => (b, .error e)
    | .ok b2 => registerLoop rest b2 (dictInsert acc task_name (wrapTask task_name cfg))

/-- Embedding of `register_scheduled_tasks` (lines 171-203), parametrised
by the task table and the initial broker state. Returns the final broker
state together with either the `registered` report dict or the propagated
registration error. -/
def register_scheduled_tasks (table : Dict TaskConfig) (b : List RegisteredTask) :
    List RegisteredTask × Except RegError (Dict RegisteredTask) :=
  registerLoop table b []

/-! ### Retry policy (section 4.3 of the design) -/

/-- Per-task retry policy: `enabled` plus a bound on retry attempts. In the
table, `enabled` is `retry_on_error` and `maxRetries` is `max_retries`. -/
structure RetryPolicy where
  enabled : Bool
  maxRetries : Nat
  deriving Repr, DecidableEq

/-- Modelled from the spec: the per-firing retry state machine of section
4.3, with `remaining` retries still allowed and `attempt` the 0-based index
of the attempt about to run. `outcome i` tells whether the i-th execution
attempt succeeds. Returns the number of executions performed and whether
the firing ended in `Succeeded`. -/
def retryLoop (outcome : Nat → Bool) : Nat → Nat → Nat × Bool
  | remaining, attempt =>
    if outcome attempt then (attempt + 1, true)
    else
      match remaining with
      | 0 => (attempt + 1, false)
      | r + 1 => retryLoop outcome r (attempt + 1)

/-- Modelled from the spec: one firing under a retry policy (enforcement is
delegated to the broker runtime, absent from the sample). The attempt
counter starts at 0 for each firing; a failure is retried only while the
policy is enabled and fewer than `maxRetries` retries have been used. -/
def runFiring (policy : RetryPolicy) (outcome : Nat → Bool) : Nat × Bool :=
  retryLoop outcome (if policy.enabled then policy.maxRetries else 0) 0

/-- A minimal valid config used in concrete registration scenarios. -/
def sampleValidCfg : TaskConfig :=
  { function := "daily_cleanup"
    schedule := [{ cron := "0 2 * * *", kwargs := [] }]
    retry_on_error := false
    max_retries := none
    description := "sample valid task" }

/-- A config whose cron has an out-of-range minute field (61). -/
def sampleInvalidCfg : TaskConfig :=
  { function := "bad_task"
    schedule := [{ cron := "61 0 * * *", kwargs := [] }]
    retry_on_error := false
    max_retries := none
    description := "sample invalid task" }

/-- A two-entry table whose second task has a malformed cron expression. -/
def sampleTable : Dict TaskConfig :=
  [("daily_cleanup", sampleValidCfg), ("bad_task", sampleInvalidCfg)]

/-- A second config distinct from `sampleValidCfg` (different description),
used to exercise duplicate-name insertion. -/
def sampleValidCfgB : TaskConfig :=
  { function := "daily_cleanup"
    schedule := [{ cron := "0 3 * * *", kwargs := [] }]
    retry_on_error := true
    max_retries := some 1
    description := "sample valid task, variant" }

/-! ## Theorems -/

/-- The pass test of line 81 holds exactly when the status field is
`healthy` or `not_configured` (in particular, an absent status, giving
`none`, never passes). -/
theorem statusPasses_iff (c : Outcome) :
    statusPasses c = true ↔
      (dictGet c "status" = some "healthy" ∨ dictGet c "status" = some "not_configured") := by
  simp [statusPasses]

/-- Claim C1: within one firing of `hourly_health_check`, the folded status
is `healthy` exactly when both probe outcomes carry a status in
`{healthy, not_configured}`, and is `degraded` otherwise; the
both-`not_configured` table row is the instance of the equivalence where
both disjunctions hold on the right. -/
theorem health_fold_healthy_iff (db_res redis_res : ProbeResult) (now : String) :
    ∃ rep logs, hourly_health_check db_res redis_res now = .ok (rep, logs) ∧
      (rep.status = "healthy" ↔
        ((dictGet (resolveCheck db_res) "status" = some "healthy" ∨
            dictGet (resolveCheck db_res) "status" = some "not_configured") ∧
         (dictGet (resolveCheck redis_res) "status" = some "healthy" ∨
            dictGet (resolveCheck redis_res) "status" = some "not_configured"))) ∧
      (rep.status = "healthy" ∨ rep.status = "degraded") := by
  refine ⟨_, _, rfl, ?_, ?_⟩
  · rw [← statusPasses_iff, ← statusPasses_iff]
    cases hdb : statusPasses (resolveCheck db_res) <;>
      cases hr : statusPasses (resolveCheck redis_res) <;>
        simp [hourly_health_check, hdb, hr]
  · cases hdb : statusPasses (resolveCheck db_res) <;>
      cases hr : statusPasses (resolveCheck redis_res) <;>
        simp [hourly_health_check, hdb, hr]

/-- Claim C9: the folded status of `hourly_health_check` is symmetric in
the order of the two probe results. -/
theorem health_fold_commutative (a b : ProbeResult) (now : String) :
    ∃ rep1 logs1 rep2 logs2,
      hourly_health_check a b now = .ok (rep1, logs1) ∧
      hourly_health_check b a now = .ok (rep2, logs2) ∧
      rep1.status = rep2.status := by
  refine ⟨_, _, _, _, rfl, rfl, ?_⟩
  simp [hourly_health_check, Bool.and_comm]

/-- Claim C2: when one probe raises and the sibling returns, the aggregator
still returns normally; the raising probe is replaced by the synthetic
`{status: error, error: message}` outcome, the sibling outcome is stored
exactly as returned, and the folded status is `degraded`. -/
theorem health_probe_exception_isolated (msg : String) (sibling : Outcome) (now : String) :
    (∃ rep logs, hourly_health_check (.error msg) (.ok sibling) now = .ok (rep, logs) ∧
        rep.checks = [("database", [("status", "error"), ("error", msg)]),
                      ("redis", sibling)] ∧
        rep.status = "degraded")
  ∧ (∃ rep logs, hourly_health_check (.ok sibling) (.error msg) now = .ok (rep, logs) ∧
        rep.checks = [("database", sibling),
                      ("redis", [("status", "error"), ("error", msg)])] ∧
        rep.status = "degraded") := by
  constructor <;> refine ⟨_, _, rfl, ?_, ?_⟩ <;>
    simp [hourly_health_check, resolveCheck, statusPasses, dictGet]

/-- Claim C3: every execution of `hourly_health_check` yields an
ExecutionResult whose status is `completed`, whose payload maps `database`
and `redis` to the respective subsystem outcomes, and whose payload status
is the folded `healthy` or `degraded` value. -/
theorem health_check_execution_result (db_res redis_res : ProbeResult) (now : String) :
    ∃ rep logs, hourly_health_check db_res redis_res now = .ok (rep, logs) ∧
      runUnit (hourly_health_check db_res redis_res now) =
        { status := "completed", payload := some rep } ∧
      dictGet rep.checks "database" = some (resolveCheck db_res) ∧
      dictGet rep.checks "redis" = some (resolveCheck redis_res) ∧
      (rep.status = "healthy" ∨ rep.status = "degraded") := by
  refine ⟨_, _, rfl, rfl, ?_, ?_, ?_⟩
  · simp [hourly_health_check, dictGet]
  · simp [hourly_health_check, dictGet]
  · cases hdb : statusPasses (resolveCheck db_res) <;>
      cases hr : statusPasses (resolveCheck redis_res) <;>
        simp [hourly_health_check, hdb, hr]

/-- Claim C5: each execution of `hourly_health_check` emits exactly one
completion log record, at `info` severity when the folded status is
`healthy` and at `warning` severity when it is `degraded`. -/
theorem health_check_log_severity (db_res redis_res : ProbeResult) (now : String) :
    ∃ rep logs, hourly_health_check db_res redis_res now = .ok (rep, logs) ∧
      logs.filter (fun r => r.message == "Hourly health check completed") =
        [{ level := if rep.status = "healthy" then "info" else "warning",
           message := "Hourly health check completed" }] ∧
      (rep.status = "healthy" ∨ rep.status = "degraded") := by
  refine ⟨_, _, rfl, ?_, ?_⟩ <;>
    cases hdb : statusPasses (resolveCheck db_res) <;>
      cases hr : statusPasses (resolveCheck redis_res) <;>
        simp +decide [hourly_health_check, hdb, hr]

/-- Claim C10: a probe that returns a mapping without a recognised pass
status (absent status key included) makes the folded status `degraded`
while its mapping is stored unchanged in the checks, whichever probe slot
it occupies; the aggregator still returns normally. -/
theorem health_unrecognised_status_degraded (o : Outcome) (other : ProbeResult) (now : String)
    (h1 : dictGet o "status" ≠ some "healthy")
    (h2 : dictGet o "status" ≠ some "not_configured") :
    (∃ rep logs, hourly_health_check (.ok o) other now = .ok (rep, logs) ∧
        dictGet rep.checks "database" = some o ∧ rep.status = "degraded")
  ∧ (∃ rep logs, hourly_health_check other (.ok o) now = .ok (rep, logs) ∧
        dictGet rep.checks "redis" = some o ∧ rep.status = "degraded") := by
  have hp : statusPasses o = false := by
    cases hsp : statusPasses o
    · rfl
    · rcases (statusPasses_iff o).1 hsp with h | h
      · exact absurd h h1
      · exact absurd h h2
  constructor <;> refine ⟨_, _, rfl, ?_, ?_⟩ <;>
    simp +decide [hourly_health_check, resolveCheck, dictGet, hp]

/-- Witness for C10 at a concrete unrecognised status. -/
theorem health_unrecognised_status_degraded_witness :
    (∃ rep logs,
        hourly_health_check (.ok [("status", "unhealthy")]) (.ok [("status", "healthy")]) "t" =
          .ok (rep, logs) ∧
        dictGet rep.checks "database" = some [("status", "unhealthy")] ∧
        rep.status = "degraded")
  ∧ (∃ rep logs,
        hourly_health_check (.ok [("status", "healthy")]) (.ok [("status", "unhealthy")]) "t" =
          .ok (rep, logs) ∧
        dictGet rep.checks "redis" = some [("status", "unhealthy")] ∧
        rep.status = "degraded") :=
  health_unrecognised_status_degraded [("status", "unhealthy")] (.ok [("status", "healthy")]) "t"
    (by decide) (by decide)

/-- Membership reading of `dictContains`. -/
theorem dictContains_iff {α : Type} (d : Dict α) (k : String) :
    dictContains d k = true ↔ k ∈ d.map Prod.fst := by
  simp only [dictContains, List.any_eq_true, List.mem_map, beq_iff_eq]

/-- Inserting a fresh key appends the pair at the end. -/
theorem dictInsert_of_not_contains {α : Type} (d : Dict α) (k : String) (v : α)
    (h : dictContains d k = false) :
    dictInsert d k v = d ++ [(k, v)] := by
  simp [dictInsert, h]

/-- A broker registration call succeeds on a task whose cron expressions
are all valid, appending the task to the broker state. -/
theorem brokerTask_ok (b : List RegisteredTask) (t : RegisteredTask)
    (h : t.schedule.all (fun e => validCron e.cron) = true) :
    brokerTask b t = .ok (b ++ [t]) := by
  unfold brokerTask
  have hnone : t.schedule.find? (fun e => ! validCron e.cron) = none := by
    rw [List.find?_eq_none]
    intro e he
    rw [List.all_eq_true] at h
    simp [h e he]
  rw [hnone]

/-- A broker registration call on a task with some invalid cron fails with
`InvalidScheduleError` carrying the task name and the first offending cron
field, leaving the broker state untouched. -/
theorem brokerTask_error (b : List RegisteredTask) (t : RegisteredTask)
    (h : t.schedule.all (fun e => validCron e.cron) = false) :
    ∃ e, t.schedule.find? (fun e => ! validCron e.cron) = some e ∧
      brokerTask b t = .error (.invalidSchedule t.task_name e.cron) := by
  have hex : ∃ x ∈ t.schedule, validCron x.cron = false := by
    by_contra hall
    push_neg at hall
    have hT : t.schedule.all (fun e => validCron e.cron) = true := by
      rw [List.all_eq_true]
      intro x hx
      cases hvx : validCron x.cron
      · exact absurd hvx (hall x hx)
      · rfl
    rw [hT] at h
    cases h
  obtain ⟨x, hx, hvx⟩ := hex
  have hsome : (t.schedule.find? (fun e => ! validCron e.cron)).isSome := by
    rw [List.find?_isSome]
    exact ⟨x, hx, by simp [hvx]⟩
  obtain ⟨e, he⟩ := Option.isSome_iff_exists.1 hsome
  refine ⟨e, he, ?_⟩
  unfold brokerTask
  rw [he]

/-- The registration loop on an all-valid table: the broker receives each
wrapped task in order and the report collects one entry per task. -/
theorem registerLoop_all_valid (table : Dict TaskConfig) :
    ∀ (b : List RegisteredTask) (acc : Dict RegisteredTask),
      (∀ p ∈ table, cfgValid p.2 = true) →
      (acc.map Prod.fst ++ table.map Prod.fst).Nodup →
      registerLoop table b acc =
        (b ++ table.map (fun p => wrapTask p.1 p.2),
         .ok (acc ++ table.map (fun p => (p.1, wrapTask p.1 p.2)))) := by
  induction table with
  | nil => intro b acc _ _; simp [registerLoop]
  | cons hd tl ih =>
    intro b acc hv hn
    obtain ⟨task_name, cfg⟩ := hd
    have hok : brokerTask b (wrapTask task_name cfg) = .ok (b ++ [wrapTask task_name cfg]) :=
      brokerTask_ok b _ (by simpa [wrapTask, cfgValid] using hv _ (List.mem_cons_self _ _))
    have hnotin : task_name ∉ acc.map Prod.fst := by
      intro hmem
      rw [List.nodup_append] at hn
      exact hn.2.2 hmem (by simp)
    have hnc : dictContains acc task_name = false := by
      cases hc : dictContains acc task_name
      · rfl
      · exact absurd ((dictContains_iff acc task_name).1 hc) hnotin
    rw [registerLoop, hok, dictInsert_of_not_contains acc task_name _ hnc]
    show registerLoop tl (b ++ [wrapTask task_name cfg])
        (acc ++ [(task_name, wrapTask task_name cfg)]) = _
    rw [ih (b ++ [wrapTask task_name cfg]) (acc ++ [(task_name, wrapTask task_name cfg)])
        (fun p hp => hv p (List.mem_cons_of_mem _ hp))
        (by
          simp only [List.map_append, List.map_cons, List.map_nil] at hn ⊢
          simpa [List.append_assoc] using hn)]
    simp

/-- Claim C8: on a table whose schedules are all valid (and whose names are
unique, as Python dict keys are), `register_scheduled_tasks` hands the
broker exactly one wrapped task per definition — carrying its name, full
schedule list, retry flag and retry bound — and returns a report with one
entry per definition whose keys are the task names in registration order,
so the reported count equals the number of definitions. -/
theorem registerAll_valid_report (table : Dict TaskConfig) (b : List RegisteredTask)
    (hv : ∀ p ∈ table, cfgValid p.2 = true)
    (hn : (table.map Prod.fst).Nodup) :
    register_scheduled_tasks table b =
      (b ++ table.map (fun p => wrapTask p.1 p.2),
       .ok (table.map (fun p => (p.1, wrapTask p.1 p.2)))) ∧
    (table.map (fun p => (p.1, wrapTask p.1 p.2))).map Prod.fst = table.map Prod.fst ∧
    (table.map (fun p => (p.1, wrapTask p.1 p.2))).length = table.length := by
  refine ⟨?_, by simp, by simp⟩
  have h := registerLoop_all_valid table b [] hv (by simpa using hn)
  simpa [register_scheduled_tasks] using h

/-- Witness for C8 on the actual `SCHEDULED_TASKS` table. -/
theorem registerAll_valid_report_witness :
    register_scheduled_tasks SCHEDULED_TASKS [] =
      ([] ++ SCHEDULED_TASKS.map (fun p => wrapTask p.1 p.2),
       .ok (SCHEDULED_TASKS.map (fun p => (p.1, wrapTask p.1 p.2)))) ∧
    (SCHEDULED_TASKS.map (fun p => (p.1, wrapTask p.1 p.2))).map Prod.fst =
      SCHEDULED_TASKS.map Prod.fst ∧
    (SCHEDULED_TASKS.map (fun p => (p.1, wrapTask p.1 p.2))).length =
      SCHEDULED_TASKS.length :=
  registerAll_valid_report SCHEDULED_TASKS [] (by decide) (by decide)

/-- The registration loop on a table with an invalid entry: it stops at the
first invalid task with `InvalidScheduleError` naming that task and the
offending cron field, and the broker keeps exactly the wrapped tasks of the
valid prefix (mutations before the failure persist; nothing is rolled
back). -/
theorem registerLoop_first_invalid (table : Dict TaskConfig) :
    ∀ (b : List RegisteredTask) (acc : Dict RegisteredTask),
      table.any (fun p => ! cfgValid p.2) = true →
      ∃ task_name cfg post e,
        table.dropWhile (fun p => cfgValid p.2) = (task_name, cfg) :: post ∧
        cfg.schedule.find? (fun s => ! validCron s.cron) = some e ∧
        registerLoop table b acc =
          (b ++ (table.takeWhile (fun p => cfgValid p.2)).map (fun p => wrapTask p.1 p.2),
           .error (.invalidSchedule task_name e.cron)) := by
  induction table with
  | nil => intro b acc h; simp at h
  | cons hd tl ih =>
    intro b acc h
    obtain ⟨task_name, cfg⟩ := hd
    cases hc : cfgValid cfg
    · obtain ⟨e, he, hbt⟩ :=
        brokerTask_error b (wrapTask task_name cfg) (by simpa [wrapTask, cfgValid] using hc)
      refine ⟨task_name, cfg, tl, e, ?_, ?_, ?_⟩
      · simp [List.dropWhile_cons, hc]
      · simpa [wrapTask] using he
      · rw [registerLoop, hbt]
        simp [List.takeWhile_cons, hc, wrapTask]
    · have h' : tl.any (fun p => ! cfgValid p.2) = true := by
        simpa [List.any_cons, hc] using h
      obtain ⟨name2, cfg2, post, e, hdrop, hfind, hrl⟩ :=
        ih (b ++ [wrapTask task_name cfg]) (dictInsert acc task_name (wrapTask task_name cfg)) h'
      refine ⟨name2, cfg2, post, e, ?_, hfind, ?_⟩
      · simpa [List.dropWhile_cons, hc] using hdrop
      · rw [registerLoop,
          brokerTask_ok b (wrapTask task_name cfg) (by simpa [wrapTask, cfgValid] using hc)]
        show registerLoop tl (b ++ [wrapTask task_name cfg])
            (dictInsert acc task_name (wrapTask task_name cfg)) = _
        rw [hrl]
        simp [List.takeWhile_cons, hc, List.append_assoc]

/-- Claim C4 (amended): a table containing a task with a malformed cron
fails registration with `InvalidScheduleError` naming the first offending
task and its cron field; no task at or after the offending one is
registered, but the tasks of the valid prefix before it remain registered
with the broker — the loop aborts at the offender and performs no
rollback, so registration is not all-or-nothing. -/
theorem registerAll_first_invalid (table : Dict TaskConfig) (b : List RegisteredTask)
    (h : table.any (fun p => ! cfgValid p.2) = true) :
    ∃ task_name cfg post e,
      table.dropWhile (fun p => cfgValid p.2) = (task_name, cfg) :: post ∧
      cfg.schedule.find? (fun s => ! validCron s.cron) = some e ∧
      register_scheduled_tasks table b =
        (b ++ (table.takeWhile (fun p => cfgValid p.2)).map (fun p => wrapTask p.1 p.2),
         .error (.invalidSchedule task_name e.cron)) :=
  registerLoop_first_invalid table b [] h

/-- Witness for C4 (amended) on the concrete two-entry table. -/
theorem registerAll_first_invalid_witness :
    ∃ task_name cfg post e,
      sampleTable.dropWhile (fun p => cfgValid p.2) = (task_name, cfg) :: post ∧
      cfg.schedule.find? (fun s => ! validCron s.cron) = some e ∧
      register_scheduled_tasks sampleTable [] =
        ([] ++ (sampleTable.takeWhile (fun p => cfgValid p.2)).map (fun p => wrapTask p.1 p.2),
         .error (.invalidSchedule task_name e.cron)) :=
  registerAll_first_invalid sampleTable [] (by decide)

/-- Counterexample to C4 as stated: on a table whose first task is valid
and whose second has the malformed cron `61 0 * * *`, registration does
fail with `InvalidScheduleError` naming the offender, yet the broker is not
left empty — the first task was already registered, so registration is not
all-or-nothing. -/
theorem register_partial_registration_cex :
    (register_scheduled_tasks sampleTable []).2 =
      .error (.invalidSchedule "bad_task" "61 0 * * *") ∧
    (register_scheduled_tasks sampleTable []).1 =
      [wrapTask "daily_cleanup" sampleValidCfg] ∧
    (register_scheduled_tasks sampleTable []).1 ≠ [] := by
  refine ⟨rfl, rfl, ?_⟩
  show [wrapTask "daily_cleanup" sampleValidCfg] ≠ []
  exact List.cons_ne_nil _ _

/-- Duplicate-key insertion leaves the key sequence unchanged. -/
theorem dictInsert_keys_of_contains {α : Type} (d : Dict α) (k : String) (v : α)
    (h : dictContains d k = true) :
    (dictInsert d k v).map Prod.fst = d.map Prod.fst := by
  rw [dictInsert, if_pos h, List.map_map]
  refine List.map_congr_left ?_
  intro p _
  by_cases hp : p.1 = k
  · simp [Function.comp, hp]
  · simp [Function.comp, hp]

/-- Duplicate-key insertion stores the new value at the key. -/
theorem dictGet_dictInsert_of_contains {α : Type} (d : Dict α) (k : String) (v : α)
    (h : dictContains d k = true) :
    dictGet (dictInsert d k v) k = some v := by
  rw [dictInsert, if_pos h]
  induction d with
  | nil => simp [dictContains] at h
  | cons p rest ih =>
    by_cases hp : p.1 = k
    · simp [dictGet, hp]
    · have h' : dictContains rest k = true := by
        simpa [dictContains, List.any_cons, hp] using h
      simpa [dictGet, hp] using ih h'

/-- Claim C7 (amended): adding a TaskConfig under a name already present in
the registry does not fail — Python dict assignment silently replaces the
existing definition — and the key sequence is unchanged, so the registry
invariant that no two definitions share a name is preserved, but the
registry is not left unchanged and no DuplicateTaskError exists in the
code. -/
theorem registry_duplicate_overwrites (reg : Dict TaskConfig) (k : String) (v : TaskConfig)
    (h : dictContains reg k = true) :
    (dictInsert reg k v).map Prod.fst = reg.map Prod.fst ∧
    dictGet (dictInsert reg k v) k = some v :=
  ⟨dictInsert_keys_of_contains reg k v h, dictGet_dictInsert_of_contains reg k v h⟩

/-- Witness for C7 (amended) on a one-entry registry. -/
theorem registry_duplicate_overwrites_witness :
    (dictInsert [("daily_cleanup", sampleValidCfg)] "daily_cleanup" sampleValidCfgB).map
        Prod.fst =
      ([("daily_cleanup", sampleValidCfg)] : Dict TaskConfig).map Prod.fst ∧
    dictGet (dictInsert [("daily_cleanup", sampleValidCfg)] "daily_cleanup" sampleValidCfgB)
        "daily_cleanup" =
      some sampleValidCfgB :=
  registry_duplicate_overwrites [("daily_cleanup", sampleValidCfg)] "daily_cleanup"
    sampleValidCfgB (by decide)

/-- Counterexample to C7 as stated: inserting a second definition under the
name `daily_cleanup` neither fails nor leaves the registry unchanged — the
existing entry is silently overwritten. -/
theorem registry_duplicate_cex :
    dictInsert [("daily_cleanup", sampleValidCfg)] "daily_cleanup" sampleValidCfgB =
      [("daily_cleanup", sampleValidCfgB)] ∧
    ([("daily_cleanup", sampleValidCfgB)] : Dict TaskConfig) ≠
      [("daily_cleanup", sampleValidCfg)] := by
  refine ⟨by decide, by decide⟩

/-- Claim C6: under the per-firing retry state machine, a failing unit with
retries disabled runs exactly once; with retries enabled and a bound of 2,
a unit failing every attempt runs exactly three times before terminal
failure, and a unit succeeding on the second attempt runs exactly twice. -/
theorem retry_policy_contract :
    (∀ (m : Nat) (outcome : Nat → Bool), outcome 0 = false →
        runFiring { enabled := false, maxRetries := m } outcome = (1, false)) ∧
    (∀ outcome : Nat → Bool, (∀ i, outcome i = false) →
        runFiring { enabled := true, maxRetries := 2 } outcome = (3, false)) ∧
    (∀ outcome : Nat → Bool, outcome 0 = false → outcome 1 = true →
        runFiring { enabled := true, maxRetries := 2 } outcome = (2, true)) := by
  refine ⟨?_, ?_, ?_⟩
  · intro m outcome h
    simp [runFiring, retryLoop, h]
  · intro outcome h
    simp [runFiring, retryLoop, h 0, h 1, h 2]
  · intro outcome h0 h1
    simp [runFiring, retryLoop, h0, h1]

/-- Witness for C6 at concrete outcome sequences. -/
theorem retry_policy_contract_witness :
    runFiring { enabled := false, maxRetries := 5 } (fun _ => false) = (1, false) ∧
    runFiring { enabled := true, maxRetries := 2 } (fun _ => false) = (3, false) ∧
    runFiring { enabled := true, maxRetries := 2 } (fun i => i == 1) = (2, true) :=
  ⟨retry_policy_contract.1 5 (fun _ => false) rfl,
   retry_policy_contract.2.1 (fun _ => false) (fun _ => rfl),
   retry_policy_contract.2.2 (fun i => i == 1) rfl rfl⟩

end BffTasks
